import Mathlib

/-!
Shallow embedding of the FRETBursts core: the alternation-period
classifier and `usalex_apply_period` from `loaders.py`, and the burst
selection predicates from `select_bursts.py`.

Modelling conventions: NumPy boolean arrays are `List Bool` (`+` on two
boolean arrays is pointwise or, `*` is pointwise and), timestamp and
detector arrays are `List Int`, float-valued per-burst quantities are
`ℚ` (exact arithmetic), and the Poisson survival analysis behind the
probabilistic background selectors is modelled over `ℝ`.
-/

namespace FRETBursts

/-- Pointwise or of two boolean arrays (NumPy `+` on boolean arrays). -/
def bOr (a b : List Bool) : List Bool := List.zipWith (fun x y => x || y) a b

/-- Pointwise and of two boolean arrays (NumPy `*` on boolean arrays). -/
def bAnd (a b : List Bool) : List Bool := List.zipWith (fun x y => x && y) a b

/-- NumPy `mask.all()`. -/
def bAll (a : List Bool) : Bool := a.all id

/-- NumPy `mask.any()`. -/
def bAny (a : List Bool) : Bool := a.any id

/-- NumPy boolean-mask indexing `xs[mask]` (keeps `xs[i]` where `mask[i]`). -/
def maskFilter {α : Type} : List α → List Bool → List α
  | x :: xs, b :: bs => if b then x :: maskFilter xs bs else maskFilter xs bs
  | _, _ => []

/-!  The alternation-window classifier of `loaders.py`.

`times % period` on a NumPy integer array with `period > 0` yields the
nonnegative representative, which is exactly `Int.emod` for a positive
modulus, so `%` below is a faithful translation.  -/

/-- Membership of a single timestamp in the outer (wrap-around) window:
`(t % period > edges[0]) or (t % period < edges[1])`. -/
def selectOuterMem (period : Int) (edges : Int × Int) (t : Int) : Bool :=
  (t % period > edges.1) || (t % period < edges.2)

/-- Membership of a single timestamp in the inner window:
`(t % period > edges[0]) and (t % period < edges[1])`. -/
def selectInnerMem (period : Int) (edges : Int × Int) (t : Int) : Bool :=
  (t % period > edges.1) && (t % period < edges.2)

/-- Embeds `loaders._select_outer_range`. -/
def select_outer_range (times : List Int) (period : Int) (edges : Int × Int) : List Bool :=
  bOr (times.map (fun t => t % period > edges.1)) (times.map (fun t => t % period < edges.2))

/-- Embeds `loaders._select_inner_range`. -/
def select_inner_range (times : List Int) (period : Int) (edges : Int × Int) : List Bool :=
  bAnd (times.map (fun t => t % period > edges.1)) (times.map (fun t => t % period < edges.2))

/-- Embeds `loaders._select_range`: inner window when `edges[0] < edges[1]`,
otherwise the outer (wrap-around) window. -/
def select_range (times : List Int) (period : Int) (edges : Int × Int) : List Bool :=
  if edges.1 < edges.2 then select_inner_range times period edges
  else select_outer_range times period edges

/-- Single-element membership test matching `select_range`. -/
def selectRangeMem (period : Int) (edges : Int × Int) (t : Int) : Bool :=
  if edges.1 < edges.2 then selectInnerMem period edges t else selectOuterMem period edges t

theorem zipWith_map_same {α β γ δ : Type} (f : β → γ → δ) (g : α → β) (h : α → γ)
    (l : List α) :
    List.zipWith f (l.map g) (l.map h) = l.map (fun x => f (g x) (h x)) := by
  induction l with
  | nil => rfl
  | cons a l ih => simp [List.zipWith, ih]

theorem select_outer_range_eq_map (times : List Int) (period : Int) (edges : Int × Int) :
    select_outer_range times period edges = times.map (selectOuterMem period edges) := by
  unfold select_outer_range bOr selectOuterMem
  exact zipWith_map_same _ _ _ times

theorem select_inner_range_eq_map (times : List Int) (period : Int) (edges : Int × Int) :
    select_inner_range times period edges = times.map (selectInnerMem period edges) := by
  unfold select_inner_range bAnd selectInnerMem
  exact zipWith_map_same _ _ _ times

theorem select_range_eq_map (times : List Int) (period : Int) (edges : Int × Int) :
    select_range times period edges = times.map (selectRangeMem period edges) := by
  unfold select_range selectRangeMem
  by_cases h : edges.1 < edges.2
  · simp only [h, if_true, select_inner_range_eq_map]
  · simp only [h, if_false, select_outer_range_eq_map]

/-- C1: `select_range` returns a mask of the same length as the input; with
`r = t % period`, the mask at `i` is true iff
`(e0 < e1 ∧ e0 < r ∧ r < e1) ∨ (e0 ≥ e1 ∧ (r > e0 ∨ r < e1))`; comparisons
are strict in both branches, so `r = e0` or `r = e1` always yields false. -/
theorem select_range_correct (times : List Int) (period : Int) (hper : 0 < period)
    (e0 e1 : Int) :
    (select_range times period (e0, e1)).length = times.length ∧
    (∀ i (h : i < times.length) (h' : i < (select_range times period (e0, e1)).length),
      ((select_range times period (e0, e1)).get ⟨i, h'⟩ = true ↔
        ((e0 < e1 ∧ (e0 < times.get ⟨i, h⟩ % period ∧ times.get ⟨i, h⟩ % period < e1)) ∨
         (e0 ≥ e1 ∧ (times.get ⟨i, h⟩ % period > e0 ∨ times.get ⟨i, h⟩ % period < e1))))) ∧
    (∀ i (h : i < times.length) (h' : i < (select_range times period (e0, e1)).length),
      (times.get ⟨i, h⟩ % period = e0 ∨ times.get ⟨i, h⟩ % period = e1) →
      (select_range times period (e0, e1)).get ⟨i, h'⟩ = false) := by
  rw [select_range_eq_map]
  refine ⟨by simp, ?_, ?_⟩
  · intro i h h'
    simp only [List.get_eq_getElem, List.getElem_map]
    unfold selectRangeMem selectInnerMem selectOuterMem
    dsimp only
    by_cases hcmp : e0 < e1
    · rw [if_pos hcmp]
      simp only [Bool.and_eq_true, decide_eq_true_eq]
      constructor
      · rintro ⟨ha, hb⟩; exact Or.inl ⟨hcmp, ha, hb⟩
      · rintro (⟨_, ha, hb⟩ | ⟨hge, _⟩)
        · exact ⟨ha, hb⟩
        · omega
    · rw [if_neg hcmp]
      simp only [Bool.or_eq_true, decide_eq_true_eq]
      constructor
      · intro hab; exact Or.inr ⟨by omega, hab⟩
      · rintro (⟨hlt, _⟩ | ⟨_, hab⟩)
        · omega
        · exact hab
  · intro i h h' hbd
    simp only [List.get_eq_getElem] at hbd
    simp only [List.get_eq_getElem, List.getElem_map]
    unfold selectRangeMem selectInnerMem selectOuterMem
    by_cases hcmp : e0 < e1 <;>
      rcases hbd with hb | hb <;>
        simp [hcmp, hb, lt_irrefl]

/-- Witness for `select_range_correct` at `period = 4000` and the spec's
usALEX windows, evaluated on concrete timestamps. -/
theorem select_range_correct_witness :
    (0 : Int) < 4000 ∧
    (select_range [3000, 1000, 700] 4000 ((2850 : Int), (580 : Int))).length = 3 :=
  ⟨by decide, (select_range_correct [3000, 1000, 700] 4000 (by decide) 2850 580).1.trans rfl⟩

/-! usALEX alternation applier (`loaders.usalex_apply_period`). -/

/-- Input fields of the `Data` object read by `usalex_apply_period`. -/
structure UsalexData where
  ph_times_t : List Int
  det_t : List Int
  det_donor_accept : Int × Int
  alex_period : Int
  D_ON : Int × Int
  A_ON : Int × Int
deriving DecidableEq

/-- Identifies which source `assert` of `usalex_apply_period` failed. -/
inductive UsalexError where
  | emissionNotExhaustive
  | emissionOverlap
  | excitationOverlap
  | postCount
  | postEmissionOverlap
  | postLength
deriving DecidableEq

/-- The five arrays produced by a successful `usalex_apply_period` run. -/
structure UsalexResult where
  ph_times : List Int
  d_em : List Bool
  a_em : List Bool
  d_ex : List Bool
  a_ex : List Bool
deriving DecidableEq

/-- Mask `det_t == donor_ch`. -/
def dChMaskT (d : UsalexData) : List Bool :=
  d.det_t.map (fun x => decide (x = d.det_donor_accept.1))

/-- Mask `det_t == accept_ch`. -/
def aChMaskT (d : UsalexData) : List Bool :=
  d.det_t.map (fun x => decide (x = d.det_donor_accept.2))

/-- Mask `valid_mask = d_ch_mask_t + a_ch_mask_t`. -/
def validMask (d : UsalexData) : List Bool := bOr (dChMaskT d) (aChMaskT d)

/-- Array `ph_times_val = ph_times_t[valid_mask]`. -/
def phTimesVal (d : UsalexData) : List Int := maskFilter d.ph_times_t (validMask d)

/-- Mask `d_ch_mask_val = d_ch_mask_t[valid_mask]`. -/
def dChMaskVal (d : UsalexData) : List Bool := maskFilter (dChMaskT d) (validMask d)

/-- Mask `a_ch_mask_val = a_ch_mask_t[valid_mask]`. -/
def aChMaskVal (d : UsalexData) : List Bool := maskFilter (aChMaskT d) (validMask d)

/-- Mask `d_ex_mask_val = _select_range(ph_times_val, alex_period, D_ON)`. -/
def dExMaskVal (d : UsalexData) : List Bool :=
  select_range (phTimesVal d) d.alex_period d.D_ON

/-- Mask `a_ex_mask_val = _select_range(ph_times_val, alex_period, A_ON)`. -/
def aExMaskVal (d : UsalexData) : List Bool :=
  select_range (phTimesVal d) d.alex_period d.A_ON

/-- Validity mask `mask = d_ex_mask_val + a_ex_mask_val`. -/
def exMask (d : UsalexData) : List Bool := bOr (dExMaskVal d) (aExMaskVal d)

/-- Array `ph_times = ph_times_val[mask]`. -/
def phTimesOut (d : UsalexData) : List Int := maskFilter (phTimesVal d) (exMask d)

/-- Mask `d_em = d_ch_mask_val[mask]`. -/
def dEmOut (d : UsalexData) : List Bool := maskFilter (dChMaskVal d) (exMask d)

/-- Mask `a_em = a_ch_mask_val[mask]`. -/
def aEmOut (d : UsalexData) : List Bool := maskFilter (aChMaskVal d) (exMask d)

/-- Mask `d_ex = d_ex_mask_val[mask]`. -/
def dExOut (d : UsalexData) : List Bool := maskFilter (dExMaskVal d) (exMask d)

/-- Mask `a_ex = a_ex_mask_val[mask]`. -/
def aExOut (d : UsalexData) : List Bool := maskFilter (aExMaskVal d) (exMask d)

/-- Embeds `loaders.usalex_apply_period`; the checks are the source's
`assert` statements in program order, and a failed check aborts the run
with the matching `UsalexError`. -/
def usalex_apply_period (d : UsalexData) : Except UsalexError UsalexResult :=
  if bAll (bOr (dChMaskVal d) (aChMaskVal d)) = true then
    if bAny (bAnd (dChMaskVal d) (aChMaskVal d)) = true then .error .emissionOverlap
    else if bAny (bAnd (dExMaskVal d) (aExMaskVal d)) = true then .error .excitationOverlap
    else if (dEmOut d).count true + (aEmOut d).count true = (phTimesOut d).length then
      if bAny (bAnd (dEmOut d) (aEmOut d)) = true then .error .postEmissionOverlap
      else if (aExOut d).length = (aEmOut d).length ∧ (aEmOut d).length = (dExOut d).length ∧
              (dExOut d).length = (dEmOut d).length ∧ (dEmOut d).length = (phTimesOut d).length then
        .ok ⟨phTimesOut d, dEmOut d, aEmOut d, dExOut d, aExOut d⟩
      else .error .postLength
    else .error .postCount
  else .error .emissionNotExhaustive

/-- C2: whenever `usalex_apply_period` returns normally, the five output
arrays have identical length, and the donor-emission true-count plus the
acceptor-emission true-count equals that common length. -/
theorem usalex_post_condition (d : UsalexData) (r : UsalexResult)
    (h : usalex_apply_period d = .ok r) :
    r.a_ex.length = r.ph_times.length ∧ r.a_em.length = r.ph_times.length ∧
    r.d_ex.length = r.ph_times.length ∧ r.d_em.length = r.ph_times.length ∧
    r.d_em.count true + r.a_em.count true = r.ph_times.length := by
  unfold usalex_apply_period at h
  split_ifs at h with h1 h2 h3 h4 h5 h6 <;>
    first
      | exact Except.noConfusion h
      | (obtain rfl := Except.ok.inj h
         exact ⟨by dsimp only; omega, by dsimp only; omega, by dsimp only; omega,
                by dsimp only; omega, by dsimp only; omega⟩)

/-- Concrete usALEX input taken from the spec's worked example:
period 4000, donor window `(2850, 580)`, acceptor window `(930, 2580)`,
detector ids `(0, 1)`. -/
def usalexExample : UsalexData :=
  ⟨[3000, 1000, 700, 50], [0, 1, 0, 2], (0, 1), 4000, (2850, 580), (930, 2580)⟩

/-- Witness for `usalex_post_condition`: the worked example returns
normally and satisfies the post-condition. -/
theorem usalex_post_condition_witness :
    usalex_apply_period usalexExample =
      .ok ⟨[3000, 1000], [true, false], [false, true], [true, false], [false, true]⟩ ∧
    List.count true [true, false] + List.count true [false, true] =
      List.length ([3000, 1000] : List Int) :=
  ⟨rfl,
   (usalex_post_condition usalexExample
      ⟨[3000, 1000], [true, false], [false, true], [true, false], [false, true]⟩
      rfl).2.2.2.2⟩

theorem bAnd_select_ranges (d : UsalexData) :
    bAnd (dExMaskVal d) (aExMaskVal d) =
      (phTimesVal d).map (fun t => selectRangeMem d.alex_period d.D_ON t &&
                                   selectRangeMem d.alex_period d.A_ON t) := by
  unfold dExMaskVal aExMaskVal bAnd
  rw [select_range_eq_map, select_range_eq_map]
  exact zipWith_map_same _ _ _ _

theorem bAny_overlap_iff (d : UsalexData) :
    bAny (bAnd (dExMaskVal d) (aExMaskVal d)) = true ↔
      ∃ t ∈ phTimesVal d,
        selectRangeMem d.alex_period d.D_ON t = true ∧
        selectRangeMem d.alex_period d.A_ON t = true := by
  rw [bAnd_select_ranges]
  simp [bAny, List.any_map, List.any_eq_true, Function.comp, Bool.and_eq_true]

theorem usalex_excitation_overlap_aux (d : UsalexData) :
    usalex_apply_period d = .error .excitationOverlap ↔
      (bAll (bOr (dChMaskVal d) (aChMaskVal d)) = true ∧
       bAny (bAnd (dChMaskVal d) (aChMaskVal d)) = false ∧
       ∃ t ∈ phTimesVal d,
         selectRangeMem d.alex_period d.D_ON t = true ∧
         selectRangeMem d.alex_period d.A_ON t = true) := by
  unfold usalex_apply_period
  split_ifs with h1 h2 h3 h4 h5 h6
  · exact iff_of_false (by simp) (fun hc => by simp [hc.2.1] at h2)
  · exact iff_of_true rfl ⟨h1, Bool.eq_false_iff.mpr h2, (bAny_overlap_iff d).mp h3⟩
  · exact iff_of_false (by simp) (fun hc => h3 ((bAny_overlap_iff d).mpr hc.2.2))
  · exact iff_of_false (by simp) (fun hc => h3 ((bAny_overlap_iff d).mpr hc.2.2))
  · exact iff_of_false (by simp) (fun hc => h3 ((bAny_overlap_iff d).mpr hc.2.2))
  · exact iff_of_false (by simp) (fun hc => h3 ((bAny_overlap_iff d).mpr hc.2.2))
  · exact iff_of_false (by simp) (fun hc => h1 hc.1)

/-- C4: `usalex_apply_period` aborts with the excitation-window overlap
assertion iff the emission assertions pass and some photon surviving the
detector filter is classified inside both the donor and the acceptor
window; when the two windows are disjoint under `selectRangeMem`, this
assertion never fires. -/
theorem usalex_excitation_overlap_iff (d : UsalexData) :
    (usalex_apply_period d = .error .excitationOverlap ↔
      (bAll (bOr (dChMaskVal d) (aChMaskVal d)) = true ∧
       bAny (bAnd (dChMaskVal d) (aChMaskVal d)) = false ∧
       ∃ t ∈ phTimesVal d,
         selectRangeMem d.alex_period d.D_ON t = true ∧
         selectRangeMem d.alex_period d.A_ON t = true)) ∧
    ((∀ t : Int, ¬ (selectRangeMem d.alex_period d.D_ON t = true ∧
                    selectRangeMem d.alex_period d.A_ON t = true)) →
      usalex_apply_period d ≠ .error .excitationOverlap) := by
  refine ⟨usalex_excitation_overlap_aux d, fun hdis heq => ?_⟩
  obtain ⟨-, -, t, _, hD, hA⟩ := (usalex_excitation_overlap_aux d).mp heq
  exact hdis t ⟨hD, hA⟩

/-- Witness for `usalex_excitation_overlap_iff`: the spec's usALEX windows
are disjoint, so the worked example never hits the overlap assertion. -/
theorem usalex_excitation_overlap_iff_witness :
    usalex_apply_period usalexExample ≠ .error .excitationOverlap :=
  (usalex_excitation_overlap_iff usalexExample).2 (by
    intro t ht
    obtain ⟨hD, hA⟩ := ht
    unfold selectRangeMem selectInnerMem selectOuterMem usalexExample at hD hA
    simp only [Bool.or_eq_true, Bool.and_eq_true, decide_eq_true_eq] at hD hA
    norm_num at hD hA
    omega)

theorem filterOr_all {α : Type} (l : List α) (f g : α → Bool) :
    bAll (bOr (maskFilter (l.map f) (bOr (l.map f) (l.map g)))
              (maskFilter (l.map g) (bOr (l.map f) (l.map g)))) = true := by
  induction l with
  | nil => rfl
  | cons a l ih =>
    by_cases hf : f a <;> by_cases hg : g a <;>
      simpa [maskFilter, bOr, bAll, hf, hg] using ih

theorem filterAnd_any_false {α : Type} (l : List α) (f g : α → Bool)
    (hfg : ∀ x, ¬ (f x = true ∧ g x = true)) :
    bAny (bAnd (maskFilter (l.map f) (bOr (l.map f) (l.map g)))
               (maskFilter (l.map g) (bOr (l.map f) (l.map g)))) = false := by
  induction l with
  | nil => rfl
  | cons a l ih =>
    have ha := hfg a
    by_cases hf : f a
    · by_cases hg : g a
      · exact absurd ⟨hf, hg⟩ ha
      · simpa [maskFilter, bAnd, bOr, bAny, hf, hg] using ih
    · by_cases hg : g a
      · simpa [maskFilter, bAnd, bOr, bAny, hf, hg] using ih
      · simpa [maskFilter, bAnd, bOr, bAny, hf, hg] using ih

/-- C10: when the two configured detector ids are distinct, the two
emission-partition assertions always hold — every photon surviving the
detector filter is donor-emission or acceptor-emission and never both —
so `usalex_apply_period` never aborts with either emission error. -/
theorem usalex_emission_partition (d : UsalexData)
    (h : d.det_donor_accept.1 ≠ d.det_donor_accept.2) :
    bAll (bOr (dChMaskVal d) (aChMaskVal d)) = true ∧
    bAny (bAnd (dChMaskVal d) (aChMaskVal d)) = false ∧
    usalex_apply_period d ≠ .error .emissionNotExhaustive ∧
    usalex_apply_period d ≠ .error .emissionOverlap := by
  have hall : bAll (bOr (dChMaskVal d) (aChMaskVal d)) = true := by
    unfold dChMaskVal aChMaskVal validMask dChMaskT aChMaskT
    exact filterOr_all d.det_t _ _
  have hany : bAny (bAnd (dChMaskVal d) (aChMaskVal d)) = false := by
    unfold dChMaskVal aChMaskVal validMask dChMaskT aChMaskT
    refine filterAnd_any_false d.det_t _ _ (fun x hx => h ?_)
    obtain ⟨hx1, hx2⟩ := hx
    simp only [decide_eq_true_eq] at hx1 hx2
    rw [← hx1, ← hx2]
  refine ⟨hall, hany, ?_, ?_⟩ <;>
    (intro hc
     unfold usalex_apply_period at hc
     rw [if_pos hall, if_neg (by simp [hany])] at hc
     split_ifs at hc <;> simp at hc)

/-- Witness for `usalex_emission_partition` at the worked example, whose
detector ids `(0, 1)` are distinct. -/
theorem usalex_emission_partition_witness :
    usalexExample.det_donor_accept.1 ≠ usalexExample.det_donor_accept.2 ∧
    usalex_apply_period usalexExample ≠ .error .emissionNotExhaustive ∧
    usalex_apply_period usalexExample ≠ .error .emissionOverlap :=
  ⟨by decide, (usalex_emission_partition usalexExample (by decide)).2.2⟩

/-!  Burst selection predicates (`select_bursts.py`).

Per-burst float-valued arrays (`nd`, `na`, `naa`, `nt`, background rates,
`clk_p`) are modelled over `ℚ` in exact arithmetic; burst boundary and
width arrays (produced by the external burst-search collaborator and
consumed here as given arrays) are integer clock-tick arrays; the
period-bin index array `bp` is a natural-number array.  -/

/-- Shared burst-size computation of `nda`, `nda_percentile` and
`topN_nda`: `nd*gamma1 + na` when `gamma1` is given, else `nd + na/gamma`. -/
def burstSize (nd na : List ℚ) (gamma : ℚ) (gamma1 : Option ℚ) : List ℚ :=
  match gamma1 with
  | some g1 => List.zipWith (fun x y => x * g1 + y) nd na
  | none => List.zipWith (fun x y => x + y / gamma) nd na

/-- Burst size used by `nda`: `burst_size += naa` when the dataset is ALEX
and `add_naa` is requested. -/
def ndaSizes (nd na naa : List ℚ) (alex add_naa : Bool) (gamma : ℚ)
    (gamma1 : Option ℚ) : List ℚ :=
  if alex && add_naa then
    List.zipWith (fun x y => x + y) (burstSize nd na gamma gamma1) naa
  else burstSize nd na gamma gamma1

/-- Embeds the mask of `select_bursts.nda` (the label string is omitted):
`(burst_size >= th1) * (burst_size <= th2)`. -/
def nda_mask (nd na naa : List ℚ) (alex add_naa : Bool) (gamma : ℚ)
    (gamma1 : Option ℚ) (th1 th2 : ℚ) : List Bool :=
  bAnd ((ndaSizes nd na naa alex add_naa gamma gamma1).map (fun s => decide (s ≥ th1)))
       ((ndaSizes nd na naa alex add_naa gamma gamma1).map (fun s => decide (s ≤ th2)))

/-- Embeds the mask of `select_bursts.period`.  With the default
`bp2 = None` the code evaluates `d.bp[ich].max()`; NumPy `max` of a
zero-size array raises `ValueError`, modelled as `none`. -/
def period_sel (bp : List Int) (bp1 : Int) (bp2opt : Option Int) : Option (List Bool) :=
  match bp2opt with
  | some bp2 =>
      some (bAnd (bp.map (fun x => decide (x ≥ bp1))) (bp.map (fun x => decide (x ≤ bp2))))
  | none =>
    match bp.max? with
    | none => none
    | some m =>
        some (bAnd (bp.map (fun x => decide (x ≥ bp1))) (bp.map (fun x => decide (x ≤ m))))

/-- C3 (code bug): called on an empty channel (`d.bp[ich]` empty) with its
default parameters `bp1 = 0`, `bp2 = None`, the `period` predicate
evaluates `max()` of a zero-size array and raises instead of returning the
empty mask required by the spec's degenerate-input policy. -/
theorem period_empty_channel_raises :
    period_sel [] 0 none = none ∧ period_sel [] 0 none ≠ some [] :=
  ⟨rfl, by decide⟩

/-- Expected per-burst background counts
`bg_burst = rate[bp] * b_width(mburst) * clk_p` shared by the four
deterministic background selectors.  `b_width` values are consumed as the
given tick-width array `widths`; indexing `rate[bp]` is in-range in every
claim below. -/
def bgBurst (rates : List ℚ) (bp : List ℕ) (widths : List Int) (clk_p : ℚ) : List ℚ :=
  List.zipWith (fun (p : ℕ) (w : Int) => rates.getD p 0 * (w : ℚ) * clk_p) bp widths

/-- Embeds `select_bursts.nd_bg`: keep bursts with `nd >= F * bg_burst`. -/
def nd_bg_mask (nd rates : List ℚ) (bp : List ℕ) (widths : List Int)
    (clk_p F : ℚ) : List Bool :=
  List.zipWith (fun x e => decide (x ≥ F * e)) nd (bgBurst rates bp widths clk_p)

/-- Embeds `select_bursts.na_bg`: keep bursts with `na >= F * bg_burst`. -/
def na_bg_mask (na rates : List ℚ) (bp : List ℕ) (widths : List Int)
    (clk_p F : ℚ) : List Bool :=
  List.zipWith (fun x e => decide (x ≥ F * e)) na (bgBurst rates bp widths clk_p)

/-- Embeds `select_bursts.naa_bg`: keep bursts with `naa >= F * bg_burst`. -/
def naa_bg_mask (naa rates : List ℚ) (bp : List ℕ) (widths : List Int)
    (clk_p F : ℚ) : List Bool :=
  List.zipWith (fun x e => decide (x ≥ F * e)) naa (bgBurst rates bp widths clk_p)

/-- Embeds `select_bursts.nt_bg`: keep bursts with `nt > F * bg_burst`
(strict, unlike the three selectors above). -/
def nt_bg_mask (nt rates : List ℚ) (bp : List ℕ) (widths : List Int)
    (clk_p F : ℚ) : List Bool :=
  List.zipWith (fun x e => decide (x > F * e)) nt (bgBurst rates bp widths clk_p)

/-- C5 counterexample: with one burst whose observed count equals
`F * expected` exactly, `nd_bg` keeps the burst although the count does
not exceed the threshold, while `nt_bg` on the same numbers drops it —
so the comparison is not strict and not the same for all four selectors. -/
theorem bg_selector_counterexample :
    nd_bg_mask [10] [2] [0] [1] 1 5 = [true] ∧
    nt_bg_mask [10] [2] [0] [1] 1 5 = [false] ∧
    ¬ ((10 : ℚ) > 5 * (2 * 1 * 1)) := by
  refine ⟨?_, ?_, by norm_num⟩ <;>
    (simp [nd_bg_mask, nt_bg_mask, bgBurst]; norm_num)

theorem zipWith_getD {α β γ : Type} (f : α → β → γ) (l1 : List α) (l2 : List β)
    (i : ℕ) (h1 : i < l1.length) (h2 : i < l2.length) (d1 : α) (d2 : β) (dg : γ) :
    (List.zipWith f l1 l2).getD i dg = f (l1.getD i d1) (l2.getD i d2) := by
  have hz : i < (List.zipWith f l1 l2).length := by
    rw [List.length_zipWith]; omega
  rw [List.getD_eq_getElem _ _ hz, List.getD_eq_getElem _ _ h1,
      List.getD_eq_getElem _ _ h2, List.getElem_zipWith]

/-- C5 (amended): for in-range burst index `i`, each deterministic
background selector compares the observed count against
`F * (rate[bp[i]] * width[i] * clk_p)`; `nd_bg`, `na_bg` and `naa_bg`
keep the burst iff the count is `>=` the threshold, while `nt_bg` keeps
it iff the count is strictly `>` the threshold. -/
theorem bg_selectors_spec (obs rates : List ℚ) (bp : List ℕ) (widths : List Int)
    (clk_p F : ℚ) (i : ℕ) (hobs : i < obs.length) (hbp : i < bp.length)
    (hw : i < widths.length) :
    ((nd_bg_mask obs rates bp widths clk_p F).getD i false = true ↔
      obs.getD i 0 ≥ F * (rates.getD (bp.getD i 0) 0 * (widths.getD i 0 : ℚ) * clk_p)) ∧
    ((na_bg_mask obs rates bp widths clk_p F).getD i false = true ↔
      obs.getD i 0 ≥ F * (rates.getD (bp.getD i 0) 0 * (widths.getD i 0 : ℚ) * clk_p)) ∧
    ((naa_bg_mask obs rates bp widths clk_p F).getD i false = true ↔
      obs.getD i 0 ≥ F * (rates.getD (bp.getD i 0) 0 * (widths.getD i 0 : ℚ) * clk_p)) ∧
    ((nt_bg_mask obs rates bp widths clk_p F).getD i false = true ↔
      obs.getD i 0 > F * (rates.getD (bp.getD i 0) 0 * (widths.getD i 0 : ℚ) * clk_p)) := by
  have hbg : i < (bgBurst rates bp widths clk_p).length := by
    unfold bgBurst; rw [List.length_zipWith]; omega
  have hbgv : (bgBurst rates bp widths clk_p).getD i 0 =
      rates.getD (bp.getD i 0) 0 * (widths.getD i 0 : ℚ) * clk_p := by
    unfold bgBurst
    rw [zipWith_getD _ _ _ _ hbp hw 0 0 0]
  refine ⟨?_, ?_, ?_, ?_⟩
  · unfold nd_bg_mask
    rw [zipWith_getD _ _ _ _ hobs hbg 0 0 false, hbgv]; simp
  · unfold na_bg_mask
    rw [zipWith_getD _ _ _ _ hobs hbg 0 0 false, hbgv]; simp
  · unfold naa_bg_mask
    rw [zipWith_getD _ _ _ _ hobs hbg 0 0 false, hbgv]; simp
  · unfold nt_bg_mask
    rw [zipWith_getD _ _ _ _ hobs hbg 0 0 false, hbgv]; simp

/-- Witness for `bg_selectors_spec` at the counterexample input. -/
theorem bg_selectors_spec_witness :
    ((nt_bg_mask [10] [2] [0] [1] 1 5).getD 0 false = true ↔
      (10 : ℚ) > 5 * (2 * 1 * 1)) := by
  have h := (bg_selectors_spec [10] [2] [0] [1] 1 5 0 (by decide) (by decide)
      (by decide)).2.2.2
  simpa using h

theorem nda_mask_eq_map (nd na naa : List ℚ) (alex add_naa : Bool) (gamma : ℚ)
    (gamma1 : Option ℚ) (th1 th2 : ℚ) :
    nda_mask nd na naa alex add_naa gamma gamma1 th1 th2 =
      (ndaSizes nd na naa alex add_naa gamma gamma1).map
        (fun s => decide (s ≥ th1) && decide (s ≤ th2)) := by
  unfold nda_mask bAnd
  exact zipWith_map_same _ _ _ _

theorem count_map_mono {α : Type} (l : List α) (f g : α → Bool)
    (h : ∀ x, f x = true → g x = true) :
    (l.map f).count true ≤ (l.map g).count true := by
  induction l with
  | nil => simp
  | cons a l ih =>
    simp only [List.map_cons, List.count_cons]
    have hif : (if (f a == true) = true then 1 else 0) ≤
        (if (g a == true) = true then 1 else 0) := by
      by_cases hfa : f a = true
      · simp [hfa, h a hfa]
      · simp [hfa]
    exact Nat.add_le_add ih hif

/-- C7: for fixed per-burst data and gamma settings, the true-count of the
`nda` mask is non-increasing as `th1` increases (with `th2` fixed) and
non-decreasing as `th2` increases (with `th1` fixed). -/
theorem nda_monotone (nd na naa : List ℚ) (alex add_naa : Bool) (gamma : ℚ)
    (gamma1 : Option ℚ) (th1 th1' th2 th2' : ℚ) (h1 : th1 ≤ th1') (h2 : th2 ≤ th2') :
    (nda_mask nd na naa alex add_naa gamma gamma1 th1' th2).count true ≤
      (nda_mask nd na naa alex add_naa gamma gamma1 th1 th2).count true ∧
    (nda_mask nd na naa alex add_naa gamma gamma1 th1 th2).count true ≤
      (nda_mask nd na naa alex add_naa gamma gamma1 th1 th2').count true := by
  simp only [nda_mask_eq_map]
  constructor
  · refine count_map_mono _ _ _ (fun s hs => ?_)
    simp only [Bool.and_eq_true, decide_eq_true_eq] at hs ⊢
    exact ⟨le_trans h1 hs.1, hs.2⟩
  · refine count_map_mono _ _ _ (fun s hs => ?_)
    simp only [Bool.and_eq_true, decide_eq_true_eq] at hs ⊢
    exact ⟨hs.1, le_trans hs.2 h2⟩

/-- Witness for `nda_monotone` on a concrete two-burst channel. -/
theorem nda_monotone_witness :
    (20 : ℚ) ≤ 25 ∧ (1000 : ℚ) ≤ 1001 ∧
    ((nda_mask [30, 10] [0, 0] [] false false 1 none 25 1000).count true ≤
      (nda_mask [30, 10] [0, 0] [] false false 1 none 20 1000).count true ∧
     (nda_mask [30, 10] [0, 0] [] false false 1 none 20 1000).count true ≤
      (nda_mask [30, 10] [0, 0] [] false false 1 none 20 1001).count true) :=
  ⟨by norm_num, by norm_num,
   nda_monotone [30, 10] [0, 0] [] false false 1 none 20 25 1000 1001
     (by norm_num) (by norm_num)⟩

/-- Gap mask `(burst_start[1:] - burst_end[:-1]) >= th` of
`select_bursts.single`, with the millisecond threshold already converted
to clock ticks by `th * 1e-3 / clk_p`. -/
def singleGapMask (clk_p : ℚ) (bstart bend : List Int) (th : ℚ) : List Bool :=
  List.zipWith
    (fun (s e : Int) => decide (((s - e : Int) : ℚ) ≥ th * (1 / 1000) / clk_p))
    (bstart.drop 1) bend.dropLast

/-- Embeds `select_bursts.single`: the burst mask is
`hstack([gap_mask, False]) * hstack([False, gap_mask])`. -/
def single_sel (clk_p : ℚ) (bstart bend : List Int) (th : ℚ) : List Bool :=
  bAnd (singleGapMask clk_p bstart bend th ++ [false])
       (false :: singleGapMask clk_p bstart bend th)

/-- C8 counterexample: with `clk_p = 1/80000000` (12.5 ns) and `th = 1` ms
the converted threshold is 80000 ticks; the middle burst's two gaps are
exactly 80000 ticks, which does not strictly exceed the threshold, yet
`single` selects the burst (the source comparison is `>=`). -/
theorem single_counterexample :
    single_sel (1 / 80000000) [0, 80100, 160200] [100, 80200, 160300] 1 =
      [false, true, false] ∧
    ¬ ((((80100 : Int) - 100 : Int) : ℚ) > 1 * (1 / 1000) / (1 / 80000000)) := by
  constructor
  · simp [single_sel, singleGapMask, bAnd]
    norm_num
  · norm_num

theorem singleGapMask_length (clk_p : ℚ) (bstart bend : List Int) (th : ℚ)
    (hlen : bend.length = bstart.length) :
    (singleGapMask clk_p bstart bend th).length = bstart.length - 1 := by
  unfold singleGapMask
  rw [List.length_zipWith, List.length_drop, List.length_dropLast, hlen, min_self]

theorem singleGapMask_getElem (clk_p : ℚ) (bstart bend : List Int) (th : ℚ)
    (k : ℕ) (hk : k < (singleGapMask clk_p bstart bend th).length) :
    (singleGapMask clk_p bstart bend th).get ⟨k, hk⟩ =
      decide (((bstart.getD (k + 1) 0 - bend.getD k 0 : Int) : ℚ) ≥
        th * (1 / 1000) / clk_p) := by
  have hk' := hk
  unfold singleGapMask at hk'
  rw [List.length_zipWith, lt_min_iff] at hk'
  obtain ⟨h1, h2⟩ := hk'
  have hs : k < bstart.length - 1 := by
    rw [List.length_drop] at h1; omega
  have he : k < bend.length - 1 := by
    rw [List.length_dropLast] at h2; omega
  simp only [List.get_eq_getElem]
  unfold singleGapMask
  rw [List.getElem_zipWith]
  have e1 : (bstart.drop 1).get ⟨k, h1⟩ = bstart.getD (k + 1) 0 := by
    simp only [List.get_eq_getElem]
    rw [List.getD_eq_getElem _ _ (by omega : k + 1 < bstart.length), List.getElem_drop]
    congr 1
    omega
  have e2 : bend.dropLast.get ⟨k, h2⟩ = bend.getD k 0 := by
    simp only [List.get_eq_getElem]
    rw [List.getD_eq_getElem _ _ (by omega : k < bend.length), List.getElem_dropLast]
  simp only [List.get_eq_getElem] at e1 e2
  rw [e1, e2]

/-- C8 (amended): `single`'s mask is true at `i` iff burst `i` has both a
preceding and a following neighbour and both adjacent gaps are at least
(`>=`, not strictly greater than) the converted threshold; in particular
the first and last bursts are never selected. -/
theorem single_spec (clk_p : ℚ) (bstart bend : List Int) (th : ℚ)
    (hlen : bend.length = bstart.length) (i : ℕ)
    (hi : i < (single_sel clk_p bstart bend th).length) :
    ((single_sel clk_p bstart bend th).get ⟨i, hi⟩ = true ↔
      (0 < i ∧ i + 1 < bstart.length ∧
       ((bstart.getD i 0 - bend.getD (i - 1) 0 : Int) : ℚ) ≥ th * (1 / 1000) / clk_p ∧
       ((bstart.getD (i + 1) 0 - bend.getD i 0 : Int) : ℚ) ≥ th * (1 / 1000) / clk_p)) := by
  have hgml := singleGapMask_length clk_p bstart bend th hlen
  have hi' := hi
  unfold single_sel bAnd at hi'
  rw [List.length_zipWith, lt_min_iff] at hi'
  obtain ⟨hiA, hiB⟩ := hi'
  simp only [List.get_eq_getElem]
  unfold single_sel bAnd
  rw [List.getElem_zipWith]
  cases i with
  | zero =>
    rw [List.getElem_cons_zero]
    simp
  | succ j =>
    rw [List.getElem_cons_succ]
    by_cases hj : j + 1 < (singleGapMask clk_p bstart bend th).length
    · rw [List.getElem_append_left hj]
      have hjj : j < (singleGapMask clk_p bstart bend th).length := by omega
      have g1 := singleGapMask_getElem clk_p bstart bend th (j + 1) hj
      have g2 := singleGapMask_getElem clk_p bstart bend th j hjj
      simp only [List.get_eq_getElem] at g1 g2
      rw [g1, g2]
      simp only [Bool.and_eq_true, decide_eq_true_eq]
      constructor
      · rintro ⟨hA, hB⟩
        exact ⟨Nat.succ_pos j, by omega, by simpa using hB, hA⟩
      · rintro ⟨-, -, hB, hA⟩
        exact ⟨hA, by simpa using hB⟩
    · have hje : j + 1 = (singleGapMask clk_p bstart bend th).length := by
        rw [List.length_append] at hiA
        simp at hiA
        omega
      rw [List.getElem_append_right (by omega)]
      refine iff_of_false ?_ ?_
      · intro hc
        rw [Bool.and_eq_true] at hc
        have hc1 := hc.1
        rw [List.getElem_singleton] at hc1
        simp at hc1
      · rintro ⟨-, hb, -, -⟩
        omega

/-- Witness for `single_spec`: the middle of three bursts, with both gaps
at exactly the converted threshold. -/
theorem single_spec_witness :
    ([100, 80200, 160300] : List Int).length = ([0, 80100, 160200] : List Int).length ∧
    ((single_sel (1 / 80000000) [0, 80100, 160200] [100, 80200, 160300] 1).get
        ⟨1, by decide⟩ = true ↔
      (0 < 1 ∧ 1 + 1 < ([0, 80100, 160200] : List Int).length ∧
       ((([0, 80100, 160200] : List Int).getD 1 0 -
         ([100, 80200, 160300] : List Int).getD 0 0 : Int) : ℚ) ≥
           1 * (1 / 1000) / (1 / 80000000) ∧
       ((([0, 80100, 160200] : List Int).getD 2 0 -
         ([100, 80200, 160300] : List Int).getD 1 0 : Int) : ℚ) ≥
           1 * (1 / 1000) / (1 / 80000000))) :=
  ⟨rfl, single_spec (1 / 80000000) [0, 80100, 160200] [100, 80200, 160300] 1 rfl 1
     (by decide)⟩

/-- Python slice `xs[-N:]`: the last `N` elements when `N > 0`, but the
whole list when `N = 0`, since `xs[-0:]` is `xs[0:]`. -/
def sliceLastN {α : Type} (xs : List α) (N : ℕ) : List α :=
  if N = 0 then xs else xs.drop (xs.length - N)

/-- Embeds the mask of `select_bursts.topN_nda` (label omitted):
`argsort` the burst sizes (modelled as sorting the index range by size),
start from an all-false mask and set true the indices in
`index_sorted[-N:]`. -/
def topN_nda_mask (nd na : List ℚ) (gamma : ℚ) (gamma1 : Option ℚ) (N : ℕ) : List Bool :=
  (List.range (burstSize nd na gamma gamma1).length).map
    (fun i => decide (i ∈ sliceLastN
      ((List.range (burstSize nd na gamma gamma1).length).mergeSort
        (fun i j => decide ((burstSize nd na gamma gamma1).getD i 0 ≤
                            (burstSize nd na gamma gamma1).getD j 0))) N))

/-- C9: on a non-empty channel, `topN_nda` with `N = 0` returns the
all-true mask (every burst selected) rather than an all-false one, because
the Python slice `index_sorted[-0:]` is the whole sorted index array. -/
theorem topN_nda_zero_all_true (nd na : List ℚ) (gamma : ℚ) (gamma1 : Option ℚ)
    (hnd : nd ≠ []) (hna : na ≠ []) :
    topN_nda_mask nd na gamma gamma1 0 =
      List.replicate (burstSize nd na gamma gamma1).length true ∧
    0 < (burstSize nd na gamma gamma1).length := by
  have hlen : 0 < (burstSize nd na gamma gamma1).length := by
    unfold burstSize
    cases gamma1 <;>
      (rw [List.length_zipWith, lt_min_iff]
       exact ⟨List.length_pos.mpr hnd, List.length_pos.mpr hna⟩)
  refine ⟨?_, hlen⟩
  unfold topN_nda_mask sliceLastN
  rw [if_pos rfl]
  rw [List.map_congr_left (g := fun _ => true) (fun i hi => by
    rw [decide_eq_true_eq, List.mem_mergeSort]
    exact hi)]
  simp

/-- Witness for `topN_nda_zero_all_true` on a concrete two-burst channel. -/
theorem topN_nda_zero_all_true_witness :
    ([1, 2] : List ℚ) ≠ [] ∧ ([0, 0] : List ℚ) ≠ [] ∧
    topN_nda_mask [1, 2] [0, 0] 1 none 0 = [true, true] :=
  ⟨by simp, by simp,
   (topN_nda_zero_all_true [1, 2] [0, 0] 1 none (by simp) (by simp)).1⟩

/-!  Probabilistic background selectors (`select_bursts.py`, the four
`*_bg_p` functions).

Each calls `scipy.stats.poisson(mu).isf(P)` with mean
`mu = F * rate * width_s` and keeps bursts whose observed count is `>=`
the returned threshold.  The scipy call is numeric, but its defining
semantics is exact and is modelled over `ℝ`: for a discrete distribution
scipy's `cdf(k)` is `P(X ≤ k)`, its survival function `sf(k)` is
`P(X > k)`, and `isf(P)` returns the smallest integer `k` with
`sf(k) ≤ P`.  The per-burst width in seconds is `clk_to_s(b_width) =
width * clk_p` (`clk_to_s` lives in `utils.misc`, outside these sources).
The selectors below are stated per burst: `..._keeps` holds exactly when
the vectorized mask entry of that burst is true. -/

/-- Modelled from the spec: `clk_to_s` from `utils.misc` (not among the
provided sources) converts a tick count to seconds using the clock
period, per the spec's "clock-period scalar (seconds per tick) used to
convert time-unit parameters". -/
def clk_to_s (width : Int) (clk_p : ℝ) : ℝ := (width : ℝ) * clk_p

/-- Upper tail `P(X ≥ k)` of a Poisson distribution with mean `μ`:
`1 - e^(-μ) * Σ_{j<k} μ^j / j!` (so `poissonTail μ 0 = 1`). -/
noncomputable def poissonTail (μ : ℝ) (k : ℕ) : ℝ :=
  1 - Real.exp (-μ) * ∑ j in Finset.range k, μ ^ j / (Nat.factorial j)

/-- Characterizes `scipy.stats.poisson(μ).isf(P)` for the discrete Poisson
distribution: the smallest integer `k` with survival `P(X > k) ≤ P`. -/
def IsScipyPoissonIsf (μ P : ℝ) (k : ℕ) : Prop :=
  poissonTail μ (k + 1) ≤ P ∧ ∀ j < k, P < poissonTail μ (j + 1)

/-- The threshold described by the claim: the smallest count `k` with
`P(X ≥ k) ≤ P`. -/
def IsSmallestTailLE (μ P : ℝ) (k : ℕ) : Prop :=
  poissonTail μ k ≤ P ∧ ∀ j < k, P < poissonTail μ j

/-- Embeds `select_bursts.nd_bg_p` for one burst: kept iff
`nd >= poisson(F*rate_dd*width_s).isf(P)`. -/
def nd_bg_p_keeps (rate clk_p : ℝ) (width : Int) (nd P F : ℝ) : Prop :=
  ∃ k, IsScipyPoissonIsf (F * rate * clk_to_s width clk_p) P k ∧ (k : ℝ) ≤ nd

/-- Embeds `select_bursts.na_bg_p` for one burst: kept iff
`na >= poisson(F*rate_ad*width_s).isf(P)`. -/
def na_bg_p_keeps (rate clk_p : ℝ) (width : Int) (na P F : ℝ) : Prop :=
  ∃ k, IsScipyPoissonIsf (F * rate * clk_to_s width clk_p) P k ∧ (k : ℝ) ≤ na

/-- Embeds `select_bursts.naa_bg_p` for one burst: kept iff
`naa >= poisson(F*rate_aa*width_s).isf(P)`. -/
def naa_bg_p_keeps (rate clk_p : ℝ) (width : Int) (naa P F : ℝ) : Prop :=
  ∃ k, IsScipyPoissonIsf (F * rate * clk_to_s width clk_p) P k ∧ (k : ℝ) ≤ naa

/-- Embeds `select_bursts.nt_bg_p` for one burst: kept iff
`nt >= poisson(F*rate_m*width_s).isf(P)`. -/
def nt_bg_p_keeps (rate clk_p : ℝ) (width : Int) (nt P F : ℝ) : Prop :=
  ∃ k, IsScipyPoissonIsf (F * rate * clk_to_s width clk_p) P k ∧ (k : ℝ) ≤ nt

theorem poissonTail_zero (μ : ℝ) : poissonTail μ 0 = 1 := by
  unfold poissonTail
  simp

theorem poissonTail_one (μ : ℝ) : poissonTail μ 1 = 1 - Real.exp (-μ) := by
  unfold poissonTail
  simp

theorem poissonTail_one_le (μ : ℝ) : poissonTail μ 1 ≤ μ := by
  rw [poissonTail_one]
  have h := Real.add_one_le_exp (-μ)
  linarith

/-- C6 counterexample: with mean `μ = 1/100` and `P = 1/20`, scipy's
discrete `isf` is 0 (because `P(X > 0) = 1 - e^(-1/100) ≤ 1/100 ≤ 1/20`),
so `na_bg_p` keeps a burst with observed count `na = 0`; the claim's
threshold — the smallest `k` with `P(X ≥ k) ≤ P` — is 1, and `0 ≥ 1`
fails, so the claim's characterization of the mask is wrong by one. -/
theorem na_bg_p_counterexample :
    na_bg_p_keeps (1 / 100) 1 1 0 (1 / 20) 1 ∧
    IsSmallestTailLE (1 * (1 / 100) * clk_to_s 1 1) (1 / 20) 1 ∧
    ¬ ((1 : ℝ) ≤ 0) := by
  have hμ : (1 : ℝ) * (1 / 100) * clk_to_s 1 1 = 1 / 100 := by
    unfold clk_to_s
    push_cast
    norm_num
  have htail1 : poissonTail (1 / 100) 1 ≤ 1 / 20 :=
    le_trans (poissonTail_one_le (1 / 100)) (by norm_num)
  refine ⟨⟨0, ⟨?_, ?_⟩, by norm_num⟩, ⟨?_, ?_⟩, by norm_num⟩
  · rw [hμ]
    exact htail1
  · intro j hj
    omega
  · rw [hμ]
    exact htail1
  · intro j hj
    interval_cases j
    rw [hμ, poissonTail_zero]
    norm_num

/-- For `P < 1`, scipy's discrete `isf` threshold is exactly one less than
the smallest `k` with `P(X ≥ k) ≤ P`. -/
theorem scipy_isf_shift (μ P : ℝ) (hP : P < 1) (k : ℕ) :
    IsScipyPoissonIsf μ P k ↔ IsSmallestTailLE μ P (k + 1) := by
  unfold IsScipyPoissonIsf IsSmallestTailLE
  constructor
  · rintro ⟨h1, h2⟩
    refine ⟨h1, fun j hj => ?_⟩
    cases j with
    | zero => rw [poissonTail_zero]; exact hP
    | succ m => exact h2 m (by omega)
  · rintro ⟨h1, h2⟩
    exact ⟨h1, fun j hj => h2 (j + 1) (by omega)⟩

/-- C6 (amended): for every significance level `P < 1`, each of the four
probabilistic background selectors keeps a burst iff its observed count is
at least `k₀ - 1`, where `k₀` is the smallest count with `P(X ≥ k₀) ≤ P`
and `X` is Poisson with mean `F * rate * width_s` — equivalently, iff the
count is at least the smallest `k` with `P(X > k) ≤ P` (scipy's discrete
inverse survival function), which is one less than the claim's threshold. -/
theorem bg_p_selectors_spec (rate clk_p : ℝ) (width : Int) (obs P F : ℝ)
    (hP : P < 1) :
    (nd_bg_p_keeps rate clk_p width obs P F ↔
      ∃ k, IsSmallestTailLE (F * rate * clk_to_s width clk_p) P (k + 1) ∧
        (k : ℝ) ≤ obs) ∧
    (na_bg_p_keeps rate clk_p width obs P F ↔
      ∃ k, IsSmallestTailLE (F * rate * clk_to_s width clk_p) P (k + 1) ∧
        (k : ℝ) ≤ obs) ∧
    (naa_bg_p_keeps rate clk_p width obs P F ↔
      ∃ k, IsSmallestTailLE (F * rate * clk_to_s width clk_p) P (k + 1) ∧
        (k : ℝ) ≤ obs) ∧
    (nt_bg_p_keeps rate clk_p width obs P F ↔
      ∃ k, IsSmallestTailLE (F * rate * clk_to_s width clk_p) P (k + 1) ∧
        (k : ℝ) ≤ obs) := by
  have hcong : ∀ k : ℕ,
      (IsScipyPoissonIsf (F * rate * clk_to_s width clk_p) P k ∧ (k : ℝ) ≤ obs) ↔
      (IsSmallestTailLE (F * rate * clk_to_s width clk_p) P (k + 1) ∧ (k : ℝ) ≤ obs) :=
    fun k => and_congr_left (fun _ => scipy_isf_shift _ P hP k)
  exact ⟨exists_congr hcong, exists_congr hcong, exists_congr hcong,
         exists_congr hcong⟩

/-- Witness for `bg_p_selectors_spec` at the counterexample's numbers. -/
theorem bg_p_selectors_spec_witness :
    (1 : ℝ) / 20 < 1 ∧
    (na_bg_p_keeps (1 / 100) 1 1 0 (1 / 20) 1 ↔
      ∃ k, IsSmallestTailLE (1 * (1 / 100) * clk_to_s 1 1) (1 / 20) (k + 1) ∧
        (k : ℝ) ≤ 0) :=
  ⟨by norm_num,
   (bg_p_selectors_spec (1 / 100) 1 1 0 (1 / 20) 1 (by norm_num)).2.1⟩

end FRETBursts
